import Mathlib

/-!
Verification of the `common/exec.go` core of the SYNQfm/helpers repository:
the subprocess execution wrapper (`ExecObj` with `Open`/`Close`/`Read`/`Exec`/
`StatusCode`/`StatusBody`/`MarshalError`) and the PID-file single-instance
guard (`CheckPid`).

Modelling conventions:
- Byte slices (`[]byte`) are modelled as `String` (captured output, captured
  error stream, serialized bodies).
- A Go `error` value is modelled by its message text, so an error-typed
  variable is an `Option String` (`none` = nil error).
- OS / filesystem nondeterminism (pipe-creation failures, process start
  failures, read failures, process liveness) is supplied by explicit
  environment records (`ExecEnv`, `PidSys`, `PidFs`), so every run of the Go
  code corresponds to one choice of environment.
- Library code called by the source (`encoding/json`'s `MarshalIndent` with a
  `json.RawMessage` field, `strconv.ParseInt`, `strings.Contains`,
  `fmt.Sprintf "%d"`) is modelled faithfully below, including the fact that
  marshaling a `json.RawMessage` that is not valid JSON makes `MarshalIndent`
  return an error and a nil body.
-/

/-! ### Model of `encoding/json` serialization and validation -/

/-- Left brace character, kept as a named constant. -/
def lbraceChar : Char := Char.ofNat 123

/-- Right brace character, kept as a named constant. -/
def rbraceChar : Char := Char.ofNat 125

/-- Hexadecimal digit character for a value below 16 (lower case, as Go emits). -/
def hexDigitChar (n : Nat) : Char :=
  if n < 10 then Char.ofNat (48 + n) else Char.ofNat (87 + n)

/-- Model of Go `encoding/json` string-character escaping (with the default
HTML escaping of `<`, `>` and `&`). -/
def quoteChar (c : Char) : List Char :=
  if c == '"' then ['\\', '"']
  else if c == '\\' then ['\\', '\\']
  else if c == '\n' then ['\\', 'n']
  else if c == '\r' then ['\\', 'r']
  else if c == '\t' then ['\\', 't']
  else if c == '<' then '\\' :: 'u' :: '0' :: '0' :: '3' :: ['c']
  else if c == '>' then '\\' :: 'u' :: '0' :: '0' :: '3' :: ['e']
  else if c == '&' then '\\' :: 'u' :: '0' :: '0' :: '2' :: ['6']
  else if c.toNat < 32 then
    '\\' :: 'u' :: '0' :: '0' :: hexDigitChar (c.toNat / 16) :: [hexDigitChar (c.toNat % 16)]
  else [c]

/-- Model of Go `encoding/json` string quoting. -/
def quoteStr (s : String) : String :=
  ⟨'"' :: s.data.foldr (fun c acc => quoteChar c ++ acc) ['"']⟩

/-- Whitespace recognised by the JSON scanner. -/
def isJsonWs (c : Char) : Bool :=
  c == ' ' || c == '\t' || c == '\n' || c == '\r'

/-- Model of `json.Compact` on the character level: whitespace outside string
literals is dropped, string literals are copied verbatim.  The state tracks
whether we are inside a string literal and whether the previous character was
an unconsumed backslash. -/
def compactAux : List Char → Bool → Bool → List Char
  | [], _, _ => []
  | c :: cs, inStr, esc =>
    if inStr then
      if esc then c :: compactAux cs true false
      else if c == '\\' then c :: compactAux cs true true
      else if c == '"' then c :: compactAux cs false false
      else c :: compactAux cs true false
    else if isJsonWs c then compactAux cs false false
    else if c == '"' then c :: compactAux cs true false
    else c :: compactAux cs false false

/-- Model of `json.Compact` on strings. -/
def compactJson (s : String) : String := ⟨compactAux s.data false false⟩

/-- Newline plus indentation as written by `json.Indent` with empty prefix and
a four-space indent unit. -/
def jsonNewline (depth : Nat) : List Char :=
  '\n' :: List.replicate (4 * depth) ' '

/-- Model of Go `json.Indent` (empty prefix, four-space indent) on compact
input.  The state is: current depth, inside-string flag, pending-escape flag,
and the `needIndent` flag Go sets after an opening brace or bracket. -/
def indentAux : List Char → Nat → Bool → Bool → Bool → List Char
  | [], _, _, _, _ => []
  | c :: cs, depth, inStr, esc, needInd =>
    if inStr then
      if esc then c :: indentAux cs depth true false needInd
      else if c == '\\' then c :: indentAux cs depth true true needInd
      else if c == '"' then c :: indentAux cs depth false false needInd
      else c :: indentAux cs depth true false needInd
    else
      if needInd && !(c == rbraceChar || c == ']') then
        -- Go increments the depth and writes a newline before the first
        -- element of a non-empty object or array.
        jsonNewline (depth + 1) ++
          (if c == lbraceChar || c == '[' then c :: indentAux cs (depth + 1) false false true
           else if c == ',' then
             c :: (jsonNewline (depth + 1) ++ indentAux cs (depth + 1) false false false)
           else if c == ':' then c :: ' ' :: indentAux cs (depth + 1) false false false
           else if c == '"' then c :: indentAux cs (depth + 1) true false false
           else c :: indentAux cs (depth + 1) false false false)
      else if (c == rbraceChar || c == ']') && needInd then
        -- an empty object or array stays on one line
        c :: indentAux cs depth false false false
      else if c == rbraceChar || c == ']' then
        jsonNewline (depth - 1) ++ c :: indentAux cs (depth - 1) false false false
      else if c == lbraceChar || c == '[' then c :: indentAux cs depth false false true
      else if c == ',' then c :: (jsonNewline depth ++ indentAux cs depth false false false)
      else if c == ':' then c :: ' ' :: indentAux cs depth false false false
      else if c == '"' then c :: indentAux cs depth true false false
      else c :: indentAux cs depth false false false

/-- Model of `json.Indent` with empty prefix and four-space indent, applied to
the compact output of `json.Marshal` (this composition is what
`json.MarshalIndent` does). -/
def goIndent (s : String) : String := ⟨indentAux s.data 0 false false false⟩

/-! #### JSON validity (the check `json.Marshal` performs on a `RawMessage`) -/

/-- Skip JSON whitespace. -/
def skipWs : List Char → List Char
  | [] => []
  | c :: cs => if isJsonWs c then skipWs cs else c :: cs

/-- Hexadecimal digit test used for `\uXXXX` escapes. -/
def isHexDigitChar (c : Char) : Bool :=
  c.isDigit || (97 ≤ c.toNat && c.toNat ≤ 102) || (65 ≤ c.toNat && c.toNat ≤ 70)

/-- Parse the remainder of a JSON string literal (the opening quote already
consumed); returns the input after the closing quote. -/
def jsonStringRest : List Char → Option (List Char)
  | [] => none
  | c :: cs =>
    if c == '"' then some cs
    else if c == '\\' then
      match cs with
      | [] => none
      | e :: cs2 =>
        if e == 'u' then
          match cs2 with
          | a :: b :: c2 :: d :: cs3 =>
            if isHexDigitChar a && isHexDigitChar b && isHexDigitChar c2 && isHexDigitChar d then
              jsonStringRest cs3
            else none
          | _ => none
        else if e == '"' || e == '\\' || e == '/' || e == 'b' || e == 'f'
            || e == 'n' || e == 'r' || e == 't' then
          jsonStringRest cs2
        else none
    else if c.toNat < 32 then none
    else jsonStringRest cs

/-- Drop leading decimal digits. -/
def jsonDigitsRest (l : List Char) : List Char := l.dropWhile Char.isDigit

/-- Integer part of a JSON number: `0` or a nonzero digit followed by digits. -/
def jsonIntRest : List Char → Option (List Char)
  | [] => none
  | c :: cs =>
    if c == '0' then some cs
    else if c.isDigit then some (jsonDigitsRest cs)
    else none

/-- Optional fractional part of a JSON number. -/
def jsonFracRest : List Char → Option (List Char)
  | [] => some []
  | c :: cs =>
    if c == '.' then
      match cs with
      | [] => none
      | d :: _ => if d.isDigit then some (jsonDigitsRest cs) else none
    else some (c :: cs)

/-- Optional exponent part of a JSON number. -/
def jsonExpRest : List Char → Option (List Char)
  | [] => some []
  | c :: cs =>
    if c == 'e' || c == 'E' then
      let cs2 := match cs with
        | s :: r => if s == '+' || s == '-' then r else s :: r
        | [] => []
      match cs2 with
      | [] => none
      | d :: _ => if d.isDigit then some (jsonDigitsRest cs2) else none
    else some (c :: cs)

/-- Parse a complete JSON number starting at the current position. -/
def jsonNumberRest (l : List Char) : Option (List Char) :=
  let l1 := match l with
    | c :: cs => if c == '-' then cs else c :: cs
    | [] => []
  match jsonIntRest l1 with
  | none => none
  | some l2 =>
    match jsonFracRest l2 with
    | none => none
    | some l3 => jsonExpRest l3

/-- Expect a fixed character sequence (used for `true`, `false`, `null`). -/
def expectChars : List Char → List Char → Option (List Char)
  | [], l => some l
  | _ :: _, [] => none
  | e :: es, c :: cs => if c == e then expectChars es cs else none

mutual

/-- Parse one JSON value; `fuel` bounds the recursion depth. -/
def jsonValue : Nat → List Char → Option (List Char)
  | 0, _ => none
  | fuel + 1, l =>
    match l with
    | [] => none
    | c :: cs =>
      if c == '"' then jsonStringRest cs
      else if c == 't' then expectChars ['r', 'u', 'e'] cs
      else if c == 'f' then expectChars ['a', 'l', 's', 'e'] cs
      else if c == 'n' then expectChars ['u', 'l', 'l'] cs
      else if c == lbraceChar then jsonObjBody fuel (skipWs cs)
      else if c == '[' then jsonArrBody fuel (skipWs cs)
      else if c == '-' || c.isDigit then jsonNumberRest (c :: cs)
      else none

/-- Parse the body of a JSON object (opening brace consumed, whitespace
skipped). -/
def jsonObjBody : Nat → List Char → Option (List Char)
  | 0, _ => none
  | fuel + 1, l =>
    match l with
    | [] => none
    | c :: cs => if c == rbraceChar then some cs else jsonMembers fuel (c :: cs)

/-- Parse one or more `key : value` members followed by a closing brace. -/
def jsonMembers : Nat → List Char → Option (List Char)
  | 0, _ => none
  | fuel + 1, l =>
    match l with
    | [] => none
    | c :: cs =>
      if c == '"' then
        match jsonStringRest cs with
        | none => none
        | some l2 =>
          match skipWs l2 with
          | [] => none
          | c1 :: l3 =>
            if c1 == ':' then
              match jsonValue fuel (skipWs l3) with
              | none => none
              | some l4 =>
                match skipWs l4 with
                | [] => none
                | c2 :: l5 =>
                  if c2 == ',' then jsonMembers fuel (skipWs l5)
                  else if c2 == rbraceChar then some l5
                  else none
            else none
      else none

/-- Parse the body of a JSON array (opening bracket consumed, whitespace
skipped). -/
def jsonArrBody : Nat → List Char → Option (List Char)
  | 0, _ => none
  | fuel + 1, l =>
    match l with
    | [] => none
    | c :: cs => if c == ']' then some cs else jsonElems fuel (c :: cs)

/-- Parse one or more array elements followed by a closing bracket. -/
def jsonElems : Nat → List Char → Option (List Char)
  | 0, _ => none
  | fuel + 1, l =>
    match jsonValue fuel l with
    | none => none
    | some l2 =>
      match skipWs l2 with
      | [] => none
      | c :: l3 =>
        if c == ',' then jsonElems fuel (skipWs l3)
        else if c == ']' then some l3
        else none

end

/-- Model of the validity check `encoding/json` performs when marshaling a
`json.RawMessage`: the bytes must form exactly one JSON value (surrounded by
optional whitespace).  The fuel is generous: the parser consumes at least one
character for every four fuel units. -/
def isValidJson (s : String) : Bool :=
  match jsonValue (4 * s.data.length + 16) (skipWs s.data) with
  | some rest => skipWs rest == []
  | none => false

/-! ### The `SynqError` payload

The `SynqError` struct itself is part of this repository but not under `src/`
(only `exec.go`, which uses it, is).  Modelled from the spec: the
structured-error payload has the shape
`\x7bname: string, url: string, message: string, details?: opaque-JSON\x7d`,
serialized with stable field order and four-space indentation, with `details`
carried as an embedded `json.RawMessage` that is present only when set. -/
structure SynqError where
  Name : String
  Url : String
  Message : String
  Details : Option String := none
deriving DecidableEq

/-- Compact `json.Marshal` output for a `SynqError` (stable field order,
`details` omitted when absent, the raw `details` bytes compacted).  Only
meaningful when `marshalOk` holds. -/
def marshalCompact (p : SynqError) : String :=
  "\x7b\"name\":" ++ quoteStr p.Name ++ ",\"url\":" ++ quoteStr p.Url ++
    ",\"message\":" ++ quoteStr p.Message ++
    (match p.Details with
     | none => ""
     | some d => ",\"details\":" ++ compactJson d) ++ "\x7d"

/-- Whether `json.Marshal` succeeds on a `SynqError`: string fields always
marshal, and an embedded `json.RawMessage` marshals exactly when its bytes are
valid JSON. -/
def marshalOk (p : SynqError) : Bool :=
  match p.Details with
  | none => true
  | some d => isValidJson d

/-- Model of `json.MarshalIndent(p, "", "    ")`: `none` models the error
return (whose body is nil). -/
def marshalIndent (p : SynqError) : Option String :=
  if marshalOk p then some (goIndent (marshalCompact p)) else none

example : isValidJson "\x7b\"foo\":\"bar\"\x7d" = true := by decide
example : isValidJson "" = false := by decide
example : isValidJson "123" = true := by decide
example : isValidJson "exit status 1" = false := by decide

/-! ### The `ExecObj` process runner (translated from `common/exec.go`) -/

/-- State of one pipe handle: `absent` models a nil interface value (the pipe
was never successfully created, or the field is still zero), `opened` a live
handle, `closed` a released one. -/
inductive Handle where
  | absent
  | opened
  | closed
deriving DecidableEq

/-- Model of the `ExecObj` struct.  `Cmd` keeps the command and argument list;
the run itself is driven by an `ExecEnv` environment, so the command text does
not influence the model's control flow. -/
structure ExecObj where
  command : String
  args : List String
  stdin : Handle := Handle.absent
  stdout : Handle := Handle.absent
  stderr : Handle := Handle.absent
  ReadOut : String := ""
  ReadErr : String := ""
  RunErr : Option String := none
  Err : SynqError
deriving DecidableEq

/-- Default structured-error template installed by `NewExec` (name,
documentation URL and human message copied from the source, including the
"occured" typo). -/
def defaultSynqError : SynqError :=
  { Name := "exec_error"
    Url := "http://docs.synq.fm/api/v1/errors/"
    Message := "An error occured while running your script" }

/-- Model of `NewExec`: a fresh runner with the default error template and no
pipes. -/
def NewExec (command : String) (args : List String) : ExecObj :=
  { command := command, args := args, Err := defaultSynqError }

/-- Outcomes the operating system hands to one invocation: an error for each
fallible step (`none` = that step succeeds) and the bytes each stream
delivers.  One `ExecEnv` corresponds to one actual run of the Go code. -/
structure ExecEnv where
  stdinPipeErr : Option String := none
  stdoutPipeErr : Option String := none
  stderrPipeErr : Option String := none
  startErr : Option String := none
  stdinCloseErr : Option String := none
  stdoutReadErr : Option String := none
  stdoutData : String := ""
  stderrReadErr : Option String := none
  stderrData : String := ""
  waitErr : Option String := none

namespace ExecObj

/-- Model of `ExecObj.Open`: the three pipes are requested in order stdin,
stdout, stderr; each field is assigned before the error check, so a failed
request leaves that field nil (`absent`) and the later fields untouched. -/
def Open (env : ExecEnv) (e : ExecObj) : ExecObj × Option String :=
  match env.stdinPipeErr with
  | some m => ({ e with stdin := Handle.absent }, some m)
  | none =>
    let e1 := { e with stdin := Handle.opened }
    match env.stdoutPipeErr with
    | some m => ({ e1 with stdout := Handle.absent }, some m)
    | none =>
      let e2 := { e1 with stdout := Handle.opened }
      match env.stderrPipeErr with
      | some m => ({ e2 with stderr := Handle.absent }, some m)
      | none => ({ e2 with stderr := Handle.opened }, none)

/-- Model of `ExecObj.Close`: closes `stderr` then `stdout` (and nothing
else).  Calling `Close` on a nil handle dereferences a nil interface, which
panics; that fault is modelled as `none`. -/
def Close (e : ExecObj) : Option ExecObj :=
  match e.stderr with
  | Handle.absent => none
  | _ =>
    match e.stdout with
    | Handle.absent => none
    | _ => some { e with stderr := Handle.closed, stdout := Handle.closed }

/-- Model of `ExecObj.Read`: drain stdout fully, then stderr; on a stdout
read failure the function returns before assigning `ReadOut`, and on a stderr
failure `ReadOut` is already assigned but `ReadErr` is not. -/
def Read (env : ExecEnv) (e : ExecObj) : ExecObj × Option String :=
  match env.stdoutReadErr with
  | some m => (e, some m)
  | none =>
    let e1 := { e with ReadOut := env.stdoutData }
    match env.stderrReadErr with
    | some m => (e1, some m)
    | none => ({ e1 with ReadErr := env.stderrData }, none)

end ExecObj

/-- Which steps of one invocation were actually performed.  This is model
instrumentation recording whether `Cmd.Start`, `stdin.Close`, `Read` and
`Cmd.Wait` were reached; it adds no behaviour of its own. -/
structure ExecTrace where
  started : Bool := false
  inputCloseAttempted : Bool := false
  drainAttempted : Bool := false
  waitAttempted : Bool := false
deriving DecidableEq

/-- Model of `ExecObj.Exec`: open the pipes, start the child, hand `stdin` to
the caller's callback (whose writes go to the child and whose errors the
runner never sees, so the callback has no effect on this state), close stdin,
drain both streams, wait.  The first failing step stores its error in
`RunErr` and every later step is skipped. -/
def ExecObj.Exec (env : ExecEnv) (e : ExecObj) : ExecObj × ExecTrace :=
  let r := ExecObj.Open env e
  match r.2 with
  | some m => ({ r.1 with RunErr := some m }, {})
  | none =>
    match env.startErr with
    | some m => ({ r.1 with RunErr := some m }, { started := true })
    | none =>
      -- fn(e.stdin): caller-supplied callback, invisible to the runner
      let e2 := { r.1 with stdin := Handle.closed }
      match env.stdinCloseErr with
      | some m =>
        ({ e2 with RunErr := some m }, { started := true, inputCloseAttempted := true })
      | none =>
        let r2 := ExecObj.Read env e2
        match r2.2 with
        | some m =>
          ({ r2.1 with RunErr := some m },
           { started := true, inputCloseAttempted := true, drainAttempted := true })
        | none =>
          match env.waitErr with
          | some m =>
            ({ r2.1 with RunErr := some m },
             { started := true, inputCloseAttempted := true, drainAttempted := true,
               waitAttempted := true })
          | none =>
            (r2.1,
             { started := true, inputCloseAttempted := true, drainAttempted := true,
               waitAttempted := true })

/-- Model of `ExecObj.ErrorMsg`. -/
def ExecObj.ErrorMsg (e : ExecObj) : String :=
  match e.RunErr with
  | none => ""
  | some m => m

/-- Model of `ExecObj.StatusCode`. -/
def ExecObj.StatusCode (e : ExecObj) : Nat :=
  if e.ErrorMsg = "" then 200 else 400

/-- Model of `ExecObj.MarshalError`.  The Go method mutates `e.Err` and
returns the marshaled body; the model returns the mutated payload together
with the body.  When `json.MarshalIndent` fails (an invalid `RawMessage` in
`Details`), Go logs and returns the nil body, modelled as `""`.  In the
non-"exit status 1" branch the Go code also logs both captured streams to the
operator log; logging has no modelled effect. -/
def ExecObj.MarshalError (e : ExecObj) : SynqError × String :=
  let payload :=
    if e.ErrorMsg ≠ "exit status 1" then
      { e.Err with Message := e.ErrorMsg }
    else
      { e.Err with Details := some e.ReadErr }
  (payload,
   match marshalIndent payload with
   | some body => body
   | none => "")

/-- Model of `ExecObj.StatusBody`. -/
def ExecObj.StatusBody (e : ExecObj) : String :=
  if e.ErrorMsg = "" then e.ReadOut else e.MarshalError.2

/-! ### The `CheckPid` instance guard (translated from `common/exec.go`) -/

/-- Decimal digit value of a character. -/
def digitVal (c : Char) : Nat := c.toNat - 48

/-- Model of Go `strconv.ParseInt(s, 10, 64)` restricted to what the source
uses: the returned value and a success flag.  A syntax error yields `(0,
false)`; a value outside the signed 64-bit range yields the clamped extreme
value and `false` (Go's `ErrRange` behaviour).  `CheckPid` ignores the flag. -/
def parseInt64Core (neg : Bool) (digits : List Char) : Int × Bool :=
  if digits = [] then (0, false)
  else if digits.all Char.isDigit then
    let n : Nat := digits.foldl (fun a c => a * 10 + digitVal c) 0
    if neg then
      if n > 2 ^ 63 then (-(2 ^ 63 : Int), false) else (-(n : Int), true)
    else
      if n ≥ 2 ^ 63 then ((2 ^ 63 : Int) - 1, false) else ((n : Int), true)
  else (0, false)

/-- Sign handling of `strconv.ParseInt`: strip one optional `+` or `-`, then
parse the digits with `parseInt64Core`. -/
def parseInt64 (s : String) : Int × Bool :=
  match s.data with
  | [] => (0, false)
  | c :: rest =>
    if c = '-' then parseInt64Core true rest
    else if c = '+' then parseInt64Core false rest
    else parseInt64Core false (c :: rest)

/-- Decimal digits of `n` prepended to `acc` (most significant first).  The
first argument is fuel, structural so that the kernel can evaluate it; any
fuel at least `n` gives the digits of `n`. -/
def natDecAux : Nat → Nat → List Char → List Char
  | 0, _, acc => acc
  | fuel + 1, n, acc =>
    if n = 0 then acc
    else natDecAux fuel (n / 10) (Char.ofNat (48 + n % 10) :: acc)

/-- Model of `fmt.Sprintf("%d", n)` for a nonnegative value. -/
def natDec (n : Nat) : String :=
  if n = 0 then "0" else ⟨natDecAux n n []⟩

/-- Model of Go `strings.Contains sub s`: is `needle` a contiguous substring
of `hay`? -/
def goContains (hay needle : String) : Bool :=
  containsAux needle.data hay.data
where
  containsAux (needle : List Char) : List Char → Bool
    | [] => List.isPrefixOf needle []
    | c :: cs => List.isPrefixOf needle (c :: cs) || containsAux needle cs

/-- Conflict error produced by `NewError("Pid '%d' already exists, will not
run", pid)`.  `NewError` itself is part of this repository but not under
`src/`; modelled from the spec: it produces an error whose text names the
conflicting PID by substituting it into the format string. -/
def pidConflictMsg (pid : Int) : String :=
  "Pid '" ++ toString pid ++ "' already exists, will not run"

/-- Classification of the zero-signal liveness probe's outcome as written in
the source: the claim counts as live unless the probe failed with a message
containing "already finished" or "no such process". -/
def pidAlive (probeRes : Option String) : Bool :=
  match probeRes with
  | none => true
  | some m => !(goContains m "already finished" || goContains m "no such process")

/-- State of the lock file.  `fileExists` models `os.Stat` succeeding;
`readFails` models `ioutil.ReadFile` failing (its ignored error), in which
case the read bytes are nil, i.e. the empty string. -/
structure PidFs where
  fileExists : Bool
  content : String
  readFails : Bool := false
deriving DecidableEq

/-- Process-level facts: the caller's own PID and, for each PID value, the
outcome of `process.Signal(syscall.Signal(0))` (`none` = the signal was
delivered, i.e. the probe succeeded).  On Unix `os.FindProcess` itself never
fails, and its ignored error is not modelled. -/
structure PidSys where
  currentPid : Nat
  probeErr : Int → Option String

/-- Effect of `ioutil.WriteFile(pidFile, []byte(fmt.Sprintf("%d",
currentPid)), 0644)`.  The write is modelled as succeeding (its error is
ignored by the source); a freshly written file is readable. -/
def writePidFile (pid : Nat) : PidFs :=
  { fileExists := true, content := natDec pid, readFails := false }

/-- Model of `CheckPid`: returns the (owner PID, error) pair together with the
lock file's state after the call. -/
def CheckPid (sys : PidSys) (fs : PidFs) : (Int × Option String) × PidFs :=
  let currentPid : Int := (sys.currentPid : Int)
  if fs.fileExists then
    let bytes := if fs.readFails then "" else fs.content
    let pid : Int := (parseInt64 bytes).1
    if currentPid = pid then ((currentPid, none), fs)
    else if pidAlive (sys.probeErr pid) then ((pid, some (pidConflictMsg pid)), fs)
    else ((currentPid, none), writePidFile sys.currentPid)
  else ((currentPid, none), writePidFile sys.currentPid)

example : natDec 42 = "42" := by decide
example : parseInt64 "42" = (42, true) := by decide
example : parseInt64 "" = (0, false) := by decide
example : parseInt64 "garbage" = (0, false) := by decide
example : parseInt64 "9223372036854775808" = (9223372036854775807, false) := by decide
example : goContains "os: process already finished" "already finished" = true := by decide
example : goContains "operation not permitted" "already finished" = false := by decide

/-! ### Round-trip of `fmt.Sprintf("%d", ·)` and `strconv.ParseInt` -/

theorem natDecAux_succ (f n : Nat) (acc : List Char) :
    natDecAux (f + 1) n acc =
      if n = 0 then acc else natDecAux f (n / 10) (Char.ofNat (48 + n % 10) :: acc) := rfl

theorem digitChar_isDigit (m : Nat) (h : m < 10) :
    (Char.ofNat (48 + m)).isDigit = true := by
  interval_cases m <;> decide

theorem digitVal_digitChar (m : Nat) (h : m < 10) :
    digitVal (Char.ofNat (48 + m)) = m := by
  interval_cases m <;> decide

theorem natDecAux_append (fuel : Nat) :
    ∀ n acc, n ≤ fuel → natDecAux fuel n acc = natDecAux fuel n [] ++ acc := by
  induction fuel with
  | zero =>
    intro n acc h
    have hn : n = 0 := Nat.le_zero.mp h
    simp [natDecAux, hn]
  | succ f ih =>
    intro n acc h
    by_cases hn : n = 0
    · simp [natDecAux_succ, hn]
    · have hle : n / 10 ≤ f := by omega
      rw [natDecAux_succ, if_neg hn, natDecAux_succ, if_neg hn]
      rw [ih _ _ hle, ih (n / 10) [Char.ofNat (48 + n % 10)] hle]
      simp

theorem natDecAux_digits (fuel : Nat) :
    ∀ n acc, (∀ c ∈ acc, c.isDigit = true) →
      ∀ c ∈ natDecAux fuel n acc, c.isDigit = true := by
  induction fuel with
  | zero =>
    intro n acc hacc
    simpa [natDecAux] using hacc
  | succ f ih =>
    intro n acc hacc
    by_cases hn : n = 0
    · simpa [natDecAux_succ, hn] using hacc
    · rw [natDecAux_succ, if_neg hn]
      refine ih _ _ ?_
      intro c hc
      rcases List.mem_cons.mp hc with hc | hc
      · subst hc
        exact digitChar_isDigit (n % 10) (Nat.mod_lt _ (by decide))
      · exact hacc c hc

theorem natDecAux_foldl (fuel : Nat) :
    ∀ n, n ≤ fuel → ∀ a : Nat,
      (natDecAux fuel n []).foldl (fun a c => a * 10 + digitVal c) a =
        a * 10 ^ (natDecAux fuel n []).length + n := by
  induction fuel with
  | zero =>
    intro n h a
    have hn : n = 0 := Nat.le_zero.mp h
    simp [natDecAux, hn]
  | succ f ih =>
    intro n h a
    by_cases hn : n = 0
    · simp [natDecAux_succ, hn]
    · have hle : n / 10 ≤ f := by omega
      have hrw : natDecAux (f + 1) n [] =
          natDecAux f (n / 10) [] ++ [Char.ofNat (48 + n % 10)] := by
        rw [natDecAux_succ, if_neg hn, natDecAux_append f _ _ hle]
      rw [hrw, List.foldl_append, ih _ hle a, List.length_append]
      simp only [List.foldl_cons, List.foldl_nil, List.length_cons, List.length_nil,
        Nat.zero_add]
      rw [digitVal_digitChar (n % 10) (Nat.mod_lt _ (by decide))]
      rw [pow_succ, ← Nat.mul_assoc, Nat.add_mul]
      set t := a * 10 ^ (natDecAux f (n / 10) []).length with ht
      omega

theorem natDecAux_ne_nil (f n : Nat) (h1 : n ≠ 0) (h2 : n ≤ f + 1) :
    natDecAux (f + 1) n [] ≠ [] := by
  rw [natDecAux_succ, if_neg h1, natDecAux_append f _ _ (by omega)]
  simp

/-- Writing a PID with `fmt.Sprintf("%d", ·)` and reading it back with
`strconv.ParseInt` round-trips for every value a Go `int` can hold. -/
theorem parseInt64_natDec (n : Nat) (h : n < 2 ^ 63) :
    parseInt64 (natDec n) = ((n : Int), true) := by
  by_cases hn : n = 0
  · subst hn; decide
  · have hne : natDecAux n n [] ≠ [] := by
      cases n with
      | zero => exact absurd rfl hn
      | succ m => exact natDecAux_ne_nil m (m + 1) hn (le_refl _)
    have hdig : ∀ c ∈ natDecAux n n [], c.isDigit = true :=
      natDecAux_digits n n [] (by simp)
    obtain ⟨c, rest, hl⟩ := List.exists_cons_of_ne_nil hne
    have hcdig : c.isDigit = true := hdig c (by rw [hl]; exact List.mem_cons_self _ _)
    have hcm : ¬(c = '-') := by
      intro hc; rw [hc] at hcdig; exact absurd hcdig (by decide)
    have hcp : ¬(c = '+') := by
      intro hc; rw [hc] at hcdig; exact absurd hcdig (by decide)
    have hcore : parseInt64 (natDec n) = parseInt64Core false (natDecAux n n []) := by
      rw [natDec, if_neg hn]
      show parseInt64 ⟨natDecAux n n []⟩ = _
      rw [hl]
      simp [parseInt64, hcm, hcp]
    have hall : (natDecAux n n []).all Char.isDigit = true := by
      rw [List.all_eq_true]
      intro c hc
      exact hdig c hc
    have hfold := natDecAux_foldl n n (le_refl n) 0
    rw [hcore, parseInt64Core, if_neg hne, hall]
    simp only [if_true]
    rw [hfold]
    simp only [Nat.zero_mul, Nat.zero_add]
    have hlt : ¬(n ≥ 2 ^ 63) := by omega
    rw [if_neg hlt]
    simp

/-! ### Claims about the instance guard -/

/-- C8: whenever the lock file does not exist, `CheckPid` returns the caller's
own PID with no error, and afterwards the lock file contains exactly the
decimal text representation of the caller's own PID. -/
theorem checkPid_absent_file (sys : PidSys) (fs : PidFs)
    (hex : fs.fileExists = false) :
    CheckPid sys fs = (((sys.currentPid : Int), none), writePidFile sys.currentPid) ∧
    (CheckPid sys fs).2.content = natDec sys.currentPid := by
  constructor
  · simp [CheckPid, hex]
  · simp [CheckPid, hex, writePidFile]

theorem checkPid_absent_file_witness :
    CheckPid ⟨1234, fun _ => none⟩ ⟨false, "", false⟩ =
      ((1234, none), ⟨true, "1234", false⟩) := by
  have h := (checkPid_absent_file ⟨1234, fun _ => none⟩ ⟨false, "", false⟩ rfl).1
  exact h.trans (by decide)

/-- C6: for an existing lock file recording a PID different from the caller's
own, a successful liveness probe (the recorded process is alive) makes
`CheckPid` return the recorded PID with the conflict error naming it and
leaves the file unchanged; a probe failure carrying one of the two recognized
"not alive" messages makes it overwrite the file with the caller's own PID
and return (own PID, no error). -/
theorem checkPid_foreign_pid (sys : PidSys) (fs : PidFs) (pid : Int)
    (hex : fs.fileExists = true)
    (hparse : (parseInt64 (if fs.readFails then "" else fs.content)).1 = pid)
    (hne : ¬((sys.currentPid : Int) = pid)) :
    (sys.probeErr pid = none →
      CheckPid sys fs = ((pid, some (pidConflictMsg pid)), fs)) ∧
    (∀ m, sys.probeErr pid = some m →
      (goContains m "already finished" = true ∨ goContains m "no such process" = true) →
      CheckPid sys fs = (((sys.currentPid : Int), none), writePidFile sys.currentPid)) := by
  constructor
  · intro halive
    simp [CheckPid, hex, hparse, hne, pidAlive, halive]
  · intro m hm hrec
    have hdead : pidAlive (sys.probeErr pid) = false := by
      rcases hrec with h | h <;> simp [pidAlive, hm, h]
    simp [CheckPid, hex, hparse, hne, hdead]

theorem checkPid_foreign_pid_witness :
    CheckPid ⟨100, fun _ => none⟩ ⟨true, "7", false⟩ =
      ((7, some "Pid '7' already exists, will not run"), ⟨true, "7", false⟩) ∧
    CheckPid ⟨100, fun _ => some "os: process already finished"⟩ ⟨true, "7", false⟩ =
      ((100, none), ⟨true, "100", false⟩) := by
  constructor
  · have h := (checkPid_foreign_pid ⟨100, fun _ => none⟩ ⟨true, "7", false⟩ 7
      rfl (by decide) (by decide)).1 rfl
    exact h.trans (by decide)
  · have h := (checkPid_foreign_pid ⟨100, fun _ => some "os: process already finished"⟩
      ⟨true, "7", false⟩ 7 rfl (by decide) (by decide)).2
      "os: process already finished" rfl (Or.inl (by decide))
    exact h.trans (by decide)

/-- C7: a liveness-probe failure whose message contains neither "already
finished" nor "no such process" is treated as a live claim (fails closed):
`CheckPid` returns the conflict error naming the recorded PID and does not
reclaim the file. -/
theorem checkPid_probe_fail_closed (sys : PidSys) (fs : PidFs) (pid : Int) (m : String)
    (hex : fs.fileExists = true)
    (hparse : (parseInt64 (if fs.readFails then "" else fs.content)).1 = pid)
    (hne : ¬((sys.currentPid : Int) = pid))
    (hm : sys.probeErr pid = some m)
    (h1 : goContains m "already finished" = false)
    (h2 : goContains m "no such process" = false) :
    CheckPid sys fs = ((pid, some (pidConflictMsg pid)), fs) := by
  simp [CheckPid, hex, hparse, hne, pidAlive, hm, h1, h2]

theorem checkPid_probe_fail_closed_witness :
    CheckPid ⟨100, fun _ => some "operation not permitted"⟩ ⟨true, "7", false⟩ =
      ((7, some "Pid '7' already exists, will not run"), ⟨true, "7", false⟩) := by
  have h := checkPid_probe_fail_closed ⟨100, fun _ => some "operation not permitted"⟩
    ⟨true, "7", false⟩ 7 "operation not permitted" rfl (by decide) (by decide) rfl
    (by decide) (by decide)
  exact h.trans (by decide)

/-- C9: `CheckPid` is idempotent for the owning process: when the recorded
PID parses to the caller's own PID it returns (own PID, no error) without
writing; consequently, whenever a first call succeeds, an immediately
repeated call also succeeds and leaves the file exactly as the first call
left it.  The bound reflects that a Go `int` PID is below `2 ^ 63`. -/
theorem checkPid_idempotent (sys : PidSys) (fs : PidFs)
    (hpid : sys.currentPid < 2 ^ 63) :
    (fs.fileExists = true →
      (parseInt64 (if fs.readFails then "" else fs.content)).1 = (sys.currentPid : Int) →
      CheckPid sys fs = (((sys.currentPid : Int), none), fs)) ∧
    ((CheckPid sys fs).1.2 = none →
      CheckPid sys (CheckPid sys fs).2 =
        (((sys.currentPid : Int), none), (CheckPid sys fs).2)) := by
  have hsecond : CheckPid sys (writePidFile sys.currentPid) =
      (((sys.currentPid : Int), none), writePidFile sys.currentPid) := by
    have hparse := parseInt64_natDec sys.currentPid hpid
    simp [CheckPid, writePidFile, hparse]
  constructor
  · intro hex hparse
    simp [CheckPid, hex, hparse]
  · intro hok
    by_cases hex : fs.fileExists
    · by_cases heq : (sys.currentPid : Int) = (parseInt64 (if fs.readFails then "" else fs.content)).1
      · have h1 : CheckPid sys fs = (((sys.currentPid : Int), none), fs) := by
          simp [CheckPid, hex, heq]
        rw [h1]
        simp [CheckPid, hex, heq]
      · by_cases halive : pidAlive (sys.probeErr (parseInt64 (if fs.readFails then "" else fs.content)).1)
        · exfalso
          have h1 : (CheckPid sys fs).1.2 =
              some (pidConflictMsg (parseInt64 (if fs.readFails then "" else fs.content)).1) := by
            simp [CheckPid, hex, heq, halive]
          rw [h1] at hok
          exact Option.some_ne_none _ hok
        · have h1 : CheckPid sys fs =
              (((sys.currentPid : Int), none), writePidFile sys.currentPid) := by
            simp [CheckPid, hex, heq, halive]
          rw [h1]
          exact hsecond
    · have h1 : CheckPid sys fs =
          (((sys.currentPid : Int), none), writePidFile sys.currentPid) := by
        simp [CheckPid, hex]
      rw [h1]
      exact hsecond

theorem checkPid_idempotent_witness :
    CheckPid ⟨500, fun _ => none⟩ ⟨true, "500", false⟩ =
      ((500, none), ⟨true, "500", false⟩) ∧
    CheckPid ⟨500, fun _ => none⟩ (CheckPid ⟨500, fun _ => none⟩ ⟨false, "", false⟩).2 =
      ((500, none), (CheckPid ⟨500, fun _ => none⟩ ⟨false, "", false⟩).2) := by
  constructor
  · have h := (checkPid_idempotent ⟨500, fun _ => none⟩ ⟨true, "500", false⟩
      (by decide)).1 rfl (by decide)
    exact h.trans (by decide)
  · exact (checkPid_idempotent ⟨500, fun _ => none⟩ ⟨false, "", false⟩ (by decide)).2
      (by decide)

/-- C10 (amended): for an existing lock file that cannot be read or whose
content is syntactically not a decimal integer — `ParseInt` yields value 0
together with an error, both ignored — `CheckPid` never returns a read or
parse error: the recorded PID is taken as 0 and the call is resolved solely
by the liveness probe of PID 0, giving a conflict naming PID 0 when the probe
classifies PID 0 as live and an overwrite with the caller's own PID
otherwise.  (Content that is a decimal number beyond the signed 64-bit range
also fails to parse, but Go's `ParseInt` then returns the clamped extreme
value rather than 0; see the counterexample.) -/
theorem checkPid_garbage_file (sys : PidSys) (fs : PidFs)
    (hex : fs.fileExists = true)
    (hgarbage : parseInt64 (if fs.readFails then "" else fs.content) = (0, false))
    (hown : sys.currentPid ≠ 0) :
    CheckPid sys fs =
      (if pidAlive (sys.probeErr 0) then ((0, some (pidConflictMsg 0)), fs)
       else (((sys.currentPid : Int), none), writePidFile sys.currentPid)) := by
  have hp : (parseInt64 (if fs.readFails then "" else fs.content)).1 = 0 := by
    rw [hgarbage]
  have hne : ¬((sys.currentPid : Int) = 0) := by exact_mod_cast hown
  cases h : pidAlive (sys.probeErr 0) <;> simp [CheckPid, hex, hp, hne, h]

theorem checkPid_garbage_file_witness :
    CheckPid ⟨42, fun _ => none⟩ ⟨true, "garbage", false⟩ =
      ((0, some "Pid '0' already exists, will not run"), ⟨true, "garbage", false⟩) ∧
    CheckPid ⟨42, fun _ => some "no such process"⟩ ⟨true, "###", true⟩ =
      ((42, none), ⟨true, "42", false⟩) := by
  constructor
  · have h := checkPid_garbage_file ⟨42, fun _ => none⟩ ⟨true, "garbage", false⟩
      rfl (by decide) (by decide)
    exact h.trans (by decide)
  · have h := checkPid_garbage_file ⟨42, fun _ => some "no such process"⟩
      ⟨true, "###", true⟩ rfl (by decide) (by decide)
    exact h.trans (by decide)

/-- C10 counterexample: the content "9223372036854775808" (two to the 63rd)
fails to parse — `ParseInt` reports a range error — yet the ignored failure
leaves the recorded PID as the clamped value 9223372036854775807, not 0, and
the call probes and names that PID rather than PID 0. -/
theorem checkPid_range_overflow_cex :
    (parseInt64 "9223372036854775808").2 = false ∧
    (CheckPid ⟨42, fun _ => none⟩ ⟨true, "9223372036854775808", false⟩).1 =
      (9223372036854775807, some (pidConflictMsg 9223372036854775807)) ∧
    ¬((CheckPid ⟨42, fun _ => none⟩ ⟨true, "9223372036854775808", false⟩).1.1 = 0) := by
  refine ⟨by decide, by decide, by decide⟩

/-! ### Claims about the process runner's invocation sequence -/

/-- Specification-side description of "the first failure encountered during
open / start / close-input / drain / wait", written from the spec's sequence
for comparison with the behaviour of `ExecObj.Exec`. -/
def specFirstFailure (env : ExecEnv) : Option String :=
  match env.stdinPipeErr with
  | some m => some m
  | none =>
  match env.stdoutPipeErr with
  | some m => some m
  | none =>
  match env.stderrPipeErr with
  | some m => some m
  | none =>
  match env.startErr with
  | some m => some m
  | none =>
  match env.stdinCloseErr with
  | some m => some m
  | none =>
  match env.stdoutReadErr with
  | some m => some m
  | none =>
  match env.stderrReadErr with
  | some m => some m
  | none => env.waitErr

/-- C5: after an invocation the run error equals the first failure of the
sequence open → start → close-input → drain → wait, and the error is sticky:
the child is started exactly when all three pipes were acquired; the input
handle is closed exactly when the child also started; the streams are drained
exactly when closing the input also succeeded; and the wait is performed
exactly when the drain also succeeded. -/
theorem exec_sticky_first_failure (env : ExecEnv) (c : String) (args : List String) :
    (ExecObj.Exec env (NewExec c args)).1.RunErr = specFirstFailure env ∧
    ((ExecObj.Exec env (NewExec c args)).2.started = true ↔
      env.stdinPipeErr = none ∧ env.stdoutPipeErr = none ∧ env.stderrPipeErr = none) ∧
    ((ExecObj.Exec env (NewExec c args)).2.inputCloseAttempted = true ↔
      env.stdinPipeErr = none ∧ env.stdoutPipeErr = none ∧ env.stderrPipeErr = none ∧
        env.startErr = none) ∧
    ((ExecObj.Exec env (NewExec c args)).2.drainAttempted = true ↔
      env.stdinPipeErr = none ∧ env.stdoutPipeErr = none ∧ env.stderrPipeErr = none ∧
        env.startErr = none ∧ env.stdinCloseErr = none) ∧
    ((ExecObj.Exec env (NewExec c args)).2.waitAttempted = true ↔
      env.stdinPipeErr = none ∧ env.stdoutPipeErr = none ∧ env.stderrPipeErr = none ∧
        env.startErr = none ∧ env.stdinCloseErr = none ∧ env.stdoutReadErr = none ∧
        env.stderrReadErr = none) := by
  obtain ⟨sp, op, ep, st, cl, sor, sod, ser, sed, w⟩ := env
  cases sp <;> cases op <;> cases ep <;> cases st <;> cases cl <;> cases sor <;>
    cases ser <;> cases w <;>
      simp [ExecObj.Exec, ExecObj.Open, ExecObj.Read, specFirstFailure, NewExec]

/-- C3 counterexample: the release operation does not touch the input-write
handle.  After a run whose pipes were acquired but whose start failed, `Close`
succeeds yet leaves `stdin` open; and after a run whose stdin-pipe acquisition
failed, `Close` dereferences nil handles and faults. -/
theorem close_not_release_stdin_cex :
    (ExecObj.Close
        (ExecObj.Exec
          { startErr := some "exec: executable file not found in PATH" }
          (NewExec "nope" [])).1).map ExecObj.stdin = some Handle.opened ∧
    ExecObj.Close
      (ExecObj.Exec { stdinPipeErr := some "pipe: too many open files" }
        (NewExec "cat" [])).1 = none := by
  constructor <;> decide

/-- C3 (amended): on every exit path of an invocation whose pipe acquisition
succeeded, the release operation `Close` runs without fault and closes the
output-read and error-read handles; the input-write handle is not released by
`Close` — it is left exactly as the invocation sequence left it, so it is
closed only on paths that reached the in-sequence input-close step.  On
pipe-acquisition failure paths some handles are nil and `Close` faults. -/
theorem close_releases_out_err (env : ExecEnv) (c : String) (args : List String)
    (h1 : env.stdinPipeErr = none) (h2 : env.stdoutPipeErr = none)
    (h3 : env.stderrPipeErr = none) :
    (ExecObj.Close (ExecObj.Exec env (NewExec c args)).1).isSome = true ∧
    (ExecObj.Close (ExecObj.Exec env (NewExec c args)).1).map ExecObj.stdout =
      some Handle.closed ∧
    (ExecObj.Close (ExecObj.Exec env (NewExec c args)).1).map ExecObj.stderr =
      some Handle.closed ∧
    (ExecObj.Close (ExecObj.Exec env (NewExec c args)).1).map ExecObj.stdin =
      some (ExecObj.Exec env (NewExec c args)).1.stdin := by
  obtain ⟨sp, op, ep, st, cl, sor, sod, ser, sed, w⟩ := env
  simp only at h1 h2 h3
  subst h1; subst h2; subst h3
  cases st <;> cases cl <;> cases sor <;> cases ser <;> cases w <;>
    simp [ExecObj.Exec, ExecObj.Open, ExecObj.Read, ExecObj.Close, NewExec]

theorem close_releases_out_err_witness :
    (ExecObj.Close (ExecObj.Exec { waitErr := some "exit status 3" }
        (NewExec "sh" ["-c", "exit 3"])).1).isSome = true ∧
    (ExecObj.Close (ExecObj.Exec { waitErr := some "exit status 3" }
        (NewExec "sh" ["-c", "exit 3"])).1).map ExecObj.stdout = some Handle.closed ∧
    (ExecObj.Close (ExecObj.Exec { waitErr := some "exit status 3" }
        (NewExec "sh" ["-c", "exit 3"])).1).map ExecObj.stderr = some Handle.closed ∧
    (ExecObj.Close (ExecObj.Exec { waitErr := some "exit status 3" }
        (NewExec "sh" ["-c", "exit 3"])).1).map ExecObj.stdin =
      some (ExecObj.Exec { waitErr := some "exit status 3" }
        (NewExec "sh" ["-c", "exit 3"])).1.stdin :=
  close_releases_out_err { waitErr := some "exit status 3" } "sh" ["-c", "exit 3"]
    rfl rfl rfl

/-! ### Claims about status code and response body -/

/-- C2: when no run error is set, `StatusCode` returns 200 and `StatusBody`
returns exactly the raw captured standard-output bytes; when a run error with
a non-empty message is set (every error the open/start/close/drain/wait steps
produce carries non-empty text), `StatusCode` returns 400; and these are the
only two possible status values. -/
theorem statusCode_two_valued (e : ExecObj) :
    (e.RunErr = none → e.StatusCode = 200 ∧ e.StatusBody = e.ReadOut) ∧
    (∀ msg, e.RunErr = some msg → ¬(msg = "") → e.StatusCode = 400) ∧
    (e.StatusCode = 200 ∨ e.StatusCode = 400) := by
  refine ⟨?_, ?_, ?_⟩
  · intro h
    simp [ExecObj.StatusCode, ExecObj.StatusBody, ExecObj.ErrorMsg, h]
  · intro msg h hne
    simp [ExecObj.StatusCode, ExecObj.ErrorMsg, h, hne]
  · by_cases h : e.ErrorMsg = "" <;> simp [ExecObj.StatusCode, h]

theorem statusCode_two_valued_witness :
    ExecObj.StatusCode
      { command := "cat", args := [], ReadOut := "hello", Err := defaultSynqError } = 200 ∧
    ExecObj.StatusBody
      { command := "cat", args := [], ReadOut := "hello", Err := defaultSynqError } =
      "hello" ∧
    ExecObj.StatusCode
      { command := "sh", args := [], RunErr := some "exit status 2",
        Err := defaultSynqError } = 400 := by
  refine ⟨?_, ?_, ?_⟩
  · exact ((statusCode_two_valued
      { command := "cat", args := [], ReadOut := "hello", Err := defaultSynqError }).1
      rfl).1
  · exact ((statusCode_two_valued
      { command := "cat", args := [], ReadOut := "hello", Err := defaultSynqError }).1
      rfl).2
  · exact (statusCode_two_valued
      { command := "sh", args := [], RunErr := some "exit status 2",
        Err := defaultSynqError }).2.1 "exit status 2" rfl (by decide)

/-- C1: for a completed run holding the default error template and a run
error: when the run error's message is exactly "exit status 1",
`MarshalError` embeds the captured error-stream bytes verbatim as the
payload's `details` field and leaves the `message` field equal to the
unmodified default template message; for any other run-error message, the
payload's `message` field equals the literal run-error text and `details`
stays absent. -/
theorem marshalError_details_vs_message (e : ExecObj) (msg : String)
    (herr : e.Err = defaultSynqError) (hrun : e.RunErr = some msg) :
    (msg = "exit status 1" →
      e.MarshalError.1.Details = some e.ReadErr ∧
      e.MarshalError.1.Message = defaultSynqError.Message) ∧
    (¬(msg = "exit status 1") →
      e.MarshalError.1.Message = msg ∧ e.MarshalError.1.Details = none) := by
  have hmsg : e.ErrorMsg = msg := by simp [ExecObj.ErrorMsg, hrun]
  constructor
  · intro h1
    simp [ExecObj.MarshalError, hmsg, h1, herr, defaultSynqError]
  · intro h1
    simp [ExecObj.MarshalError, hmsg, h1, herr, defaultSynqError]

theorem marshalError_details_vs_message_witness :
    (ExecObj.MarshalError
      { command := "s", args := [], ReadErr := "\x7b\"foo\":\"bar\"\x7d",
        RunErr := some "exit status 1", Err := defaultSynqError }).1.Details =
      some "\x7b\"foo\":\"bar\"\x7d" ∧
    (ExecObj.MarshalError
      { command := "s", args := [], ReadErr := "\x7b\"foo\":\"bar\"\x7d",
        RunErr := some "exit status 1", Err := defaultSynqError }).1.Message =
      "An error occured while running your script" ∧
    (ExecObj.MarshalError
      { command := "s", args := [], RunErr := some "exit status 2",
        Err := defaultSynqError }).1.Message = "exit status 2" ∧
    (ExecObj.MarshalError
      { command := "s", args := [], RunErr := some "exit status 2",
        Err := defaultSynqError }).1.Details = none := by
  have h1 := (marshalError_details_vs_message
    { command := "s", args := [], ReadErr := "\x7b\"foo\":\"bar\"\x7d",
      RunErr := some "exit status 1", Err := defaultSynqError }
    "exit status 1" rfl rfl).1 rfl
  have h2 := (marshalError_details_vs_message
    { command := "s", args := [], RunErr := some "exit status 2",
      Err := defaultSynqError }
    "exit status 2" rfl rfl).2 (by decide)
  exact ⟨h1.1, h1.2, h2.1, h2.2⟩

/-! ### The structured-error body is non-empty whenever marshaling succeeds -/

theorem string_data_append (a b : String) : (a ++ b).data = a.data ++ b.data := rfl

theorem head_of_append (a b : String) (h : ∃ t, a.data = lbraceChar :: t) :
    ∃ u, (a ++ b).data = lbraceChar :: u := by
  obtain ⟨t, ht⟩ := h
  exact ⟨t ++ b.data, by rw [string_data_append, ht]; rfl⟩

theorem marshalCompact_head (p : SynqError) :
    ∃ t, (marshalCompact p).data = lbraceChar :: t := by
  rw [marshalCompact]
  apply head_of_append
  apply head_of_append
  apply head_of_append
  apply head_of_append
  apply head_of_append
  apply head_of_append
  apply head_of_append
  exact ⟨"\"name\":".data, by decide⟩

theorem indentAux_lbrace (t : List Char) :
    indentAux (lbraceChar :: t) 0 false false false =
      lbraceChar :: indentAux t 0 false false true := rfl

theorem goIndent_marshalCompact_ne_empty (p : SynqError) :
    ¬(goIndent (marshalCompact p) = "") := by
  obtain ⟨t, ht⟩ := marshalCompact_head p
  intro hcontra
  have hdata : (goIndent (marshalCompact p)).data = [] := by rw [hcontra]
  rw [show (goIndent (marshalCompact p)).data =
      indentAux (marshalCompact p).data 0 false false false from rfl] at hdata
  rw [ht, indentAux_lbrace] at hdata
  exact List.cons_ne_nil _ _ hdata

/-- C4 counterexample: a run of a command that exits with status 1 while
writing nothing to its error stream — reachable, for example, by running
`sh -c "exit 1"` — carries the run error "exit status 1" and empty captured
streams; `MarshalError` then embeds the empty (hence invalid-JSON) error
stream as the payload's details, `json.MarshalIndent` fails, and
`StatusBody` returns the empty body, contradicting "never an empty body /
always decodes". -/
theorem statusBody_empty_body_cex :
    (ExecObj.Exec { waitErr := some "exit status 1" }
      (NewExec "sh" ["-c", "exit 1"])).1.RunErr = some "exit status 1" ∧
    ExecObj.StatusBody
      (ExecObj.Exec { waitErr := some "exit status 1" }
        (NewExec "sh" ["-c", "exit 1"])).1 = "" := by
  constructor <;> decide

/-- C4 (amended): for every run holding the default error template and a run
error with a non-empty message, provided the message differs from
"exit status 1" or the captured error stream is valid JSON, `StatusBody` is
exactly the indented serialization of the structured-error payload
(name/url/message and optional details), that payload carries a non-empty
message, and the body is non-empty.  (When the message is exactly
"exit status 1" and the captured error stream is not valid JSON,
serialization fails and the body is empty — see the counterexample.) -/
theorem statusBody_structured_error (e : ExecObj) (msg : String)
    (herr : e.Err = defaultSynqError) (hrun : e.RunErr = some msg)
    (hne : ¬(msg = ""))
    (hok : ¬(msg = "exit status 1") ∨ isValidJson e.ReadErr = true) :
    marshalIndent e.MarshalError.1 = some e.StatusBody ∧
    ¬(e.MarshalError.1.Message = "") ∧
    ¬(e.StatusBody = "") := by
  have hmsg : e.ErrorMsg = msg := by simp [ExecObj.ErrorMsg, hrun]
  by_cases h1 : msg = "exit status 1"
  · have hvalid : isValidJson e.ReadErr = true := by
      rcases hok with h | h
      · exact absurd h1 h
      · exact h
    have hpayload : e.MarshalError.1 = { e.Err with Details := some e.ReadErr } := by
      simp [ExecObj.MarshalError, hmsg, h1]
    have hmOk : marshalOk e.MarshalError.1 = true := by
      rw [hpayload]; simp [marshalOk, hvalid]
    have hmi : marshalIndent e.MarshalError.1 =
        some (goIndent (marshalCompact e.MarshalError.1)) := by
      rw [marshalIndent, if_pos hmOk]
    have hbody : e.StatusBody = goIndent (marshalCompact e.MarshalError.1) := by
      rw [ExecObj.StatusBody, if_neg (by rw [hmsg, h1]; decide)]
      show (match marshalIndent e.MarshalError.1 with
        | some body => body
        | none => "") = _
      rw [hmi]
    refine ⟨by rw [hbody, hmi], ?_, ?_⟩
    · rw [hpayload, herr]
      show ¬(("An error occured while running your script" : String) = "")
      decide
    · rw [hbody]
      exact goIndent_marshalCompact_ne_empty _
  · have hpayload : e.MarshalError.1 = { e.Err with Message := msg } := by
      simp [ExecObj.MarshalError, hmsg, h1]
    have hmOk : marshalOk e.MarshalError.1 = true := by
      rw [hpayload, herr]; simp [marshalOk, defaultSynqError]
    have hmi : marshalIndent e.MarshalError.1 =
        some (goIndent (marshalCompact e.MarshalError.1)) := by
      rw [marshalIndent, if_pos hmOk]
    have hbody : e.StatusBody = goIndent (marshalCompact e.MarshalError.1) := by
      rw [ExecObj.StatusBody, if_neg (by rw [hmsg]; exact hne)]
      show (match marshalIndent e.MarshalError.1 with
        | some body => body
        | none => "") = _
      rw [hmi]
    refine ⟨by rw [hbody, hmi], ?_, ?_⟩
    · rw [hpayload]
      simpa using hne
    · rw [hbody]
      exact goIndent_marshalCompact_ne_empty _

theorem statusBody_structured_error_witness :
    marshalIndent (ExecObj.MarshalError
      { command := "nope", args := [],
        RunErr := some "exec: executable file not found in PATH",
        Err := defaultSynqError }).1 =
      some (ExecObj.StatusBody
        { command := "nope", args := [],
          RunErr := some "exec: executable file not found in PATH",
          Err := defaultSynqError }) ∧
    ¬((ExecObj.MarshalError
      { command := "nope", args := [],
        RunErr := some "exec: executable file not found in PATH",
        Err := defaultSynqError }).1.Message = "") ∧
    ¬(ExecObj.StatusBody
      { command := "nope", args := [],
        RunErr := some "exec: executable file not found in PATH",
        Err := defaultSynqError } = "") :=
  statusBody_structured_error
    { command := "nope", args := [],
      RunErr := some "exec: executable file not found in PATH",
      Err := defaultSynqError }
    "exec: executable file not found in PATH" rfl rfl (by decide)
    (Or.inl (by decide))
